import Mathlib

/-!
# Webhook batch processor (`src/go/src/Benzinga/main.go`)

A shallow embedding of the Go program: the package-level variables become an
explicit state, every externally visible effect (HTTP POST, sleep, log line,
response status, goroutine start, process exit) becomes an entry of a trace,
and the outcome of each `http.Post` call is read from a delivery oracle
indexed by the number of calls made so far.

`sendBatch` and `retryBatch` call each other in the source; the embedding
bounds the nesting depth of `sendBatch` by a fuel argument and reports
`Outcome.outOfFuel` when the bound is hit.
-/

namespace Benzinga

/-! ## Data model (lines 14-47) -/

/-- Login struct represents the logins entries. -/
structure Login where
  Time : String
  IP : String
deriving DecidableEq, Repr

/-- PhoneNumbers struct represents the phone_numbers entry. -/
structure PhoneNumbers where
  Home : String
  Mobile : String
deriving DecidableEq, Repr

/-- Meta struct represents the meta entry. -/
structure Meta where
  Logins : List Login
  PhoneNumbers : PhoneNumbers
  Completed : Bool
deriving DecidableEq, Repr

/-- Payload struct: the expected JSON payload.  `Total` is a float64 in the
source; the program never computes with it, so it is carried as its 64-bit
pattern. -/
structure Payload where
  UserID : Int
  Total : Nat
  Title : String
  Meta : Meta
deriving DecidableEq, Repr

/-- The configuration variables `batchSize`, `batchInterval` (nanoseconds, as a
`time.Duration`) and `postEndpoint`, written once by `init`. -/
structure Config where
  batchSize : Int
  batchInterval : Int
  postEndpoint : String
deriving DecidableEq, Repr

/-- Number of nanoseconds in `time.Second`. -/
def second : Int := 1000000000

/-- Value of `http.StatusOK`. -/
def statusOK : Nat := 200

/-- Value of `http.StatusBadRequest`. -/
def statusBadRequest : Nat := 400

/-- Externally visible effects, in program order.  `callSendBatch` is a ghost
entry written on entry to `sendBatch`; it records the value of `payloadCache`
at that moment. -/
inductive Event where
  /-- Entry of `sendBatch`, with the current `payloadCache` (ghost). -/
  | callSendBatch (cache : List Payload)
  /-- Line 117: "Sending batch to external endpoint" with field batch_size. -/
  | logSending (batchSize : Nat)
  /-- Line 120: `http.Post(url, contentType, body)`; `none` is the nil body. -/
  | post (url : String) (contentType : String) (body : Option String)
  /-- Line 122: "Failed to send batch to external endpoint". -/
  | logPostFailed
  /-- Lines 129-132: "Batch sent successfully". -/
  | logSent
  /-- Line 139: `time.Sleep(d)`, d in nanoseconds. -/
  | sleep (d : Int)
  /-- Line 140: "Retrying batch sending" with field retry_attempt. -/
  | logRetry (attempt : Nat)
  /-- Line 143: "Failed to send batch after 3 retries. Exiting...". -/
  | logFatal
  /-- Line 97: "Failed to decode JSON payload". -/
  | logDecodeFailed (err : String)
  /-- Lines 98 and 113: `w.WriteHeader(status)`. -/
  | writeHeader (status : Nat)
  /-- Lines 107-110: start of the goroutine that sleeps `d` and then calls
  `sendBatch`. -/
  | goTimer (d : Int)
deriving DecidableEq, Repr

/-- How a call ended: it returned to its caller, the process was terminated by
`os.Exit(code)`, or the nesting bound of the embedding was reached. -/
inductive Outcome where
  | returned
  | exited (code : Int)
  | outOfFuel
deriving DecidableEq, Repr

/-- The mutable state: `payloadCache`, and the number of `http.Post` calls made
so far (the index into the delivery oracle). -/
structure State where
  payloadCache : List Payload
  posts : Nat
deriving DecidableEq, Repr

/-- Result of running a function of the program: final state, the effects it
performed, and how it ended. -/
structure Run where
  state : State
  trace : List Event
  outcome : Outcome
deriving DecidableEq, Repr

/-- The delivery capability: `deliver n = true` when the call number `n`
(counted from 0) of `http.Post` returns a nil error. -/
abbrev Delivery := Nat → Bool

/-! ## sendBatch / retryBatch (lines 116-145) -/

/-- The loop of `retryBatch` (lines 138-142) from counter value `3 - k`, with
`send` standing for the call of `sendBatch`, followed by lines 143-144. -/
def retryLoop (send : State → Run) : Nat → State → Run
  | 0, s => ⟨s, [Event.logFatal], Outcome.exited 1⟩
  | k + 1, s =>
    let r := send s
    let head := [Event.sleep (2 * second), Event.logRetry (3 - k)] ++ r.trace
    match r.outcome with
    | Outcome.returned =>
      let rest := retryLoop send k r.state
      ⟨rest.state, head ++ rest.trace, rest.outcome⟩
    | o => ⟨r.state, head, o⟩

/-- Function retryBatch (lines 137-145), with `send` standing for `sendBatch`. -/
def retryBatch (send : State → Run) (s : State) : Run :=
  retryLoop send 3 s

/-- Function sendBatch (lines 116-135).  The first argument bounds the nesting
depth of `sendBatch` calls. -/
def sendBatch (c : Config) (deliver : Delivery) : Nat → State → Run
  | 0, s => ⟨s, [], Outcome.outOfFuel⟩
  | fuel + 1, s =>
    let head := [Event.callSendBatch s.payloadCache,
                 Event.logSending s.payloadCache.length,
                 Event.post (c.postEndpoint ++ "/batch") "application/json" none]
    if deliver s.posts then
      ⟨⟨[], s.posts + 1⟩, head ++ [Event.logSent], Outcome.returned⟩
    else
      let r := retryBatch (sendBatch c deliver fuel) ⟨s.payloadCache, s.posts + 1⟩
      ⟨r.state, head ++ [Event.logPostFailed] ++ r.trace, r.outcome⟩

/-! ## logHandler (lines 93-114) -/

/-- Function logHandler (lines 93-114).  The request is given by the result of
`json.NewDecoder(r.Body).Decode(&payload)`: the decoded payload, or the
decoding error. -/
def logHandler (c : Config) (deliver : Delivery) (fuel : Nat)
    (decoded : Except String Payload) (s : State) : Run :=
  match decoded with
  | Except.error err =>
    ⟨s, [Event.logDecodeFailed err, Event.writeHeader statusBadRequest], Outcome.returned⟩
  | Except.ok payload =>
    let s1 : State := ⟨s.payloadCache ++ [payload], s.posts⟩
    if (s1.payloadCache.length : Int) ≥ c.batchSize then
      let r := sendBatch c deliver fuel s1
      match r.outcome with
      | Outcome.returned => ⟨r.state, r.trace ++ [Event.writeHeader statusOK], Outcome.returned⟩
      | o => ⟨r.state, r.trace, o⟩
    else
      ⟨s1, [Event.goTimer c.batchInterval, Event.writeHeader statusOK], Outcome.returned⟩

/-- Requests handled one after another by `logHandler`, no other code running
in between; handling stops when a call does not return. -/
def serve (c : Config) (deliver : Delivery) (fuel : Nat) :
    List (Except String Payload) → State → List Run
  | [], _ => []
  | req :: reqs, s =>
    let r := logHandler c deliver fuel req s
    match r.outcome with
    | Outcome.returned => r :: serve c deliver fuel reqs r.state
    | _ => [r]

/-! ## Trace observations -/

/-- The values of `payloadCache` at each entry of `sendBatch` in a trace. -/
def flushes : List Event → List (List Payload)
  | [] => []
  | Event.callSendBatch cache :: tr => cache :: flushes tr
  | _ :: tr => flushes tr

/-- The delivery calls (`http.Post`) of a trace. -/
def deliveries (tr : List Event) : List Event :=
  tr.filter (fun e => match e with
    | Event.post _ _ _ => true
    | _ => false)

/-- The retry sleeps of a trace. -/
def sleeps (tr : List Event) : List Event :=
  tr.filter (fun e => match e with
    | Event.sleep _ => true
    | _ => false)

/-- The part of a trace that precedes the first `WriteHeader(200)`. -/
def beforeOK (tr : List Event) : List Event :=
  tr.takeWhile (fun e => e != Event.writeHeader statusOK)

/-- The durations of the interval timers started in a trace. -/
def timersOf : List Event → List Int
  | [] => []
  | Event.goTimer d :: tr => d :: timersOf tr
  | _ :: tr => timersOf tr

/-- Least time spent in `time.Sleep` calls of a trace (a non-positive duration
returns at once). -/
def elapsed : List Event → Int
  | [] => 0
  | Event.sleep d :: tr => max d 0 + elapsed tr
  | _ :: tr => elapsed tr

/-! ## Configuration (lines 49-58, 147-165) -/

/-- Conversion to a 64-bit signed integer, as done by `time.Duration`
arithmetic. -/
def wrapInt64 (x : Int) : Int :=
  (x + 2 ^ 63) % 2 ^ 64 - 2 ^ 63

/-- Function getEnv (lines 147-153); `lookupEnv` stands for `os.LookupEnv`. -/
def getEnv (lookupEnv : String → Option String) (key defaultValue : String) : String :=
  match lookupEnv key with
  | none => defaultValue
  | some value => value

/-- Function getEnvAsInt (lines 155-165); `lookupEnv` stands for `os.LookupEnv`
and `atoi` for `strconv.Atoi` (`none` when it returns an error). -/
def getEnvAsInt (lookupEnv : String → Option String) (atoi : String → Option Int)
    (key : String) (defaultValue : Int) : Int :=
  match lookupEnv key with
  | none => defaultValue
  | some value =>
    match atoi value with
    | none => defaultValue
    | some intValue => intValue

/-- Function init (lines 49-58): the configuration read from the environment. -/
def init (lookupEnv : String → Option String) (atoi : String → Option Int) : Config :=
  ⟨getEnvAsInt lookupEnv atoi "BATCH_SIZE" 10,
   wrapInt64 (wrapInt64 (getEnvAsInt lookupEnv atoi "BATCH_INTERVAL" 60) * second),
   getEnv lookupEnv "POST_ENDPOINT" "http://requestbin.net"⟩

/-- A decimal reader used to instantiate `atoi` in examples: an optional sign
followed by decimal digits, within the 64-bit range. -/
def atoiDec (v : String) : Option Int :=
  let digits := fun (ds : List Char) =>
    if ds ≠ [] ∧ ds.all Char.isDigit then
      some (ds.foldl (fun (acc : Nat) ch => 10 * acc + (ch.toNat - 48)) 0)
    else none
  let r : Option Int := match v.toList with
    | '-' :: ds => (digits ds).map (fun n => - (n : Int))
    | '+' :: ds => (digits ds).map (fun n => (n : Int))
    | ds => (digits ds).map (fun n => (n : Int))
  r.bind (fun n => if - 2 ^ 63 ≤ n ∧ n < 2 ^ 63 then some n else none)

/-! ## Interleaved execution of logHandler and sendBatch

The program has no lock around `payloadCache`; `net/http` runs every
`logHandler` call in a goroutine of its own and the interval timers run
`sendBatch` in further goroutines.  The accesses to `payloadCache` are
separate steps: line 102 reads the slice and later writes the extended slice
back, line 120 makes the `http.Post` call and line 134 writes nil.  A slice
value is read and written as a whole; its backing array is not modelled
separately. -/

/-- Shared state of the interleaved model.  Every cached payload carries the
ghost serial number of the append that stored it. -/
structure Shared where
  payloadCache : List (Nat × Payload)
  /-- Number of appends completed so far (ghost). -/
  appended : Nat
  /-- Value of `payloadCache` at every successful `http.Post` (ghost). -/
  delivered : List (List (Nat × Payload))
  /-- Number of `sendBatch` calls between their successful `http.Post` and
  their clearing of `payloadCache`. -/
  pending : Nat
  /-- For every handler goroutine that has read `payloadCache` in line 102 and
  not yet written it back: its number and the value it read. -/
  loaded : List (Nat × List (Nat × Payload))
deriving DecidableEq, Repr

/-- Atomic steps of the goroutines. -/
inductive Step where
  /-- Line 102 of the `logHandler` call number `h`: the read of
  `payloadCache` (the argument of `append`). -/
  | load (h : Nat)
  /-- Line 102 of the `logHandler` call number `h`: the write of
  `append(value read, p)` to `payloadCache`. -/
  | store (h : Nat) (p : Payload)
  /-- Line 120 of a `sendBatch` call, with whether the error is nil. -/
  | post (ok : Bool)
  /-- Line 134 of a `sendBatch` call whose `http.Post` succeeded. -/
  | clear
deriving DecidableEq, Repr

/-- One atomic step; `none` when the step is not enabled. -/
def Shared.step (s : Shared) : Step → Option Shared
  | Step.load h =>
    match s.loaded.lookup h with
    | some _ => none
    | none =>
      some ⟨s.payloadCache, s.appended, s.delivered, s.pending,
            (h, s.payloadCache) :: s.loaded⟩
  | Step.store h p =>
    match s.loaded.lookup h with
    | none => none
    | some old =>
      some ⟨old ++ [(s.appended, p)], s.appended + 1, s.delivered, s.pending,
            s.loaded.filter (fun e => e.1 != h)⟩
  | Step.post true =>
    some ⟨s.payloadCache, s.appended, s.delivered ++ [s.payloadCache], s.pending + 1,
          s.loaded⟩
  | Step.post false => some s
  | Step.clear =>
    if s.pending = 0 then none
    else some ⟨[], s.appended, s.delivered, s.pending - 1, s.loaded⟩

/-- An interleaving: atomic steps executed in the given order. -/
def Shared.exec (s : Shared) : List Step → Option Shared
  | [] => some s
  | st :: rest =>
    match s.step st with
    | none => none
    | some s1 => s1.exec rest

/-- Number of successful delivery calls whose `payloadCache` held payload
number `i`. -/
def Shared.timesDelivered (s : Shared) (i : Nat) : Nat :=
  s.delivered.countP (fun batch => batch.any (fun e => e.1 == i))

/-- Payload number `i` is still cached. -/
def Shared.cached (s : Shared) (i : Nat) : Bool :=
  s.payloadCache.any (fun e => e.1 == i)

/-- Every appended payload is still in `payloadCache` or was in it at exactly
one successful delivery call. -/
def Shared.allAccounted (s : Shared) : Prop :=
  ∀ i, i < s.appended → s.cached i = true ∨ s.timesDelivered i = 1

/-- Interleavings in which nothing runs between the read and the write of
line 102 by one `logHandler` call, nor between a successful `http.Post` and
the clearing of `payloadCache` by the same `sendBatch` call. -/
def atomicAccesses : List Step → Bool
  | [] => true
  | Step.load h :: Step.store h1 _ :: rest => h == h1 && atomicAccesses rest
  | Step.load _ :: _ => false
  | Step.store _ _ :: _ => false
  | Step.post false :: rest => atomicAccesses rest
  | Step.post true :: Step.clear :: rest => atomicAccesses rest
  | Step.post true :: _ => false
  | Step.clear :: _ => false

/-- Bookkeeping invariant of the interleavings with atomic accesses: no append
and no take is under way, serial numbers are below the append counter, and
every appended payload is either cached and undelivered or uncached and
delivered once. -/
def Shared.takeInv (s : Shared) : Prop :=
  s.pending = 0 ∧ s.loaded = [] ∧
  (∀ e ∈ s.payloadCache, e.1 < s.appended) ∧
  (∀ b ∈ s.delivered, ∀ e ∈ b, e.1 < s.appended) ∧
  (∀ i, i < s.appended →
    (s.cached i = true ∧ s.timesDelivered i = 0) ∨
    (s.cached i = false ∧ s.timesDelivered i = 1))

/-- Initial shared state: empty cache, nothing delivered. -/
def Shared.start : Shared := ⟨[], 0, [], 0, []⟩

/-! ## Timed execution

Requests and timer goroutines run one at a time; the clock is in nanoseconds.
A goroutine started by line 107 can run `sendBatch` at any time not earlier
than `batchInterval` after its start. -/

/-- Record of one time-triggered `sendBatch` (ghost). -/
structure TimedFlush where
  /-- Time at which `sendBatch` ran. -/
  ranAt : Int
  /-- Arrival time of the request whose handler started the timer. -/
  armedAt : Int
  /-- Arrival times of the payloads then in `payloadCache`, oldest first. -/
  arrivals : List Int
deriving DecidableEq, Repr

/-- State of the timed model. -/
structure Timed where
  now : Int
  st : State
  /-- Sleeping timer goroutines: start time (ghost) and wake-up time. -/
  timers : List (Int × Int)
  /-- Arrival times of the payloads in `payloadCache`, oldest first (ghost). -/
  arrivals : List Int
  /-- Arrival times of all accepted payloads (ghost). -/
  accepted : List Int
  timedFlushes : List TimedFlush
  /-- False once `os.Exit` was called. -/
  alive : Bool
deriving DecidableEq, Repr

/-- Events of a schedule. -/
inductive Action where
  /-- A request to `/log` arrives and is handled. -/
  | request (decoded : Except String Payload)
  /-- Time passes. -/
  | advance (d : Nat)
  /-- The timer goroutine number `i` wakes up and calls `sendBatch`. -/
  | fire (i : Nat)
deriving Repr

/-- Arrival times after a call that left the cache `cache`: reset when the
cache was cleared (line 134). -/
def keepArrivals (cache : List Payload) (arrivals : List Int) : List Int :=
  if cache = [] then [] else arrivals

/-- One event of a schedule; `none` when it cannot happen (the process has
exited, the timer does not exist or is still asleep, or the bound of the
embedding was hit). -/
def Timed.step (c : Config) (deliver : Delivery) (fuel : Nat) (t : Timed) :
    Action → Option Timed
  | Action.advance d => if t.alive then some { t with now := t.now + d } else none
  | Action.request decoded =>
    if t.alive then
      let r := logHandler c deliver fuel decoded t.st
      let arr := match decoded with
        | Except.ok _ => t.arrivals ++ [t.now]
        | Except.error _ => t.arrivals
      let acc := match decoded with
        | Except.ok _ => t.accepted ++ [t.now]
        | Except.error _ => t.accepted
      let t1 : Timed :=
        ⟨t.now + elapsed r.trace, r.state,
         t.timers ++ (timersOf r.trace).map (fun d => (t.now, t.now + max d 0)),
         keepArrivals r.state.payloadCache arr, acc, t.timedFlushes, true⟩
      match r.outcome with
      | Outcome.returned => some t1
      | Outcome.exited _ => some { t1 with alive := false }
      | Outcome.outOfFuel => none
    else none
  | Action.fire i =>
    if t.alive then
      match t.timers[i]? with
      | none => none
      | some (armed, wake) =>
        if wake ≤ t.now then
          let r := sendBatch c deliver fuel t.st
          let t1 : Timed :=
            ⟨t.now + elapsed r.trace, r.state, t.timers.eraseIdx i,
             keepArrivals r.state.payloadCache t.arrivals, t.accepted,
             t.timedFlushes ++ [⟨t.now, armed, t.arrivals⟩], true⟩
          match r.outcome with
          | Outcome.returned => some t1
          | Outcome.exited _ => some { t1 with alive := false }
          | Outcome.outOfFuel => none
        else none
    else none

/-- A schedule: events in the given order. -/
def Timed.run (c : Config) (deliver : Delivery) (fuel : Nat) (t : Timed) :
    List Action → Option Timed
  | [] => some t
  | a :: rest =>
    match t.step c deliver fuel a with
    | none => none
    | some t1 => t1.run c deliver fuel rest

/-- Process start: time 0, empty cache, no timer. -/
def Timed.start : Timed := ⟨0, ⟨[], 0⟩, [], [], [], [], true⟩

/-- Every time-triggered `sendBatch` ran at least `batchInterval` after the
arrival of the oldest payload then in `payloadCache`. -/
def Timed.respectsOldest (c : Config) (t : Timed) : Prop :=
  ∀ f ∈ t.timedFlushes, ∀ a ∈ f.arrivals.head?, a + c.batchInterval ≤ f.ranAt

/-- Bookkeeping invariant of the timed model: every sleeping timer and every
recorded time-triggered flush belongs to an accepted request and is not due
earlier than `batchInterval` after that request. -/
def Timed.timerInv (c : Config) (t : Timed) : Prop :=
  (∀ tm ∈ t.timers, tm.1 ∈ t.accepted ∧ tm.1 + c.batchInterval ≤ tm.2) ∧
  (∀ f ∈ t.timedFlushes, f.armedAt ∈ t.accepted ∧ f.armedAt + c.batchInterval ≤ f.ranAt)

/-! ## Example data -/

/-- Payload A of the examples. -/
def pA : Payload := ⟨1, 0, "A", ⟨[], ⟨"", ""⟩, false⟩⟩

/-- Payload B of the examples. -/
def pB : Payload := ⟨2, 0, "B", ⟨[], ⟨"", ""⟩, false⟩⟩

/-- Payload C of the examples. -/
def pC : Payload := ⟨3, 0, "C", ⟨[], ⟨"", ""⟩, false⟩⟩

/-- Configuration with threshold 2 and interval 60 s. -/
def cfg2 : Config := ⟨2, 60 * second, "http://requestbin.net"⟩


/-- Example environment: BATCH_SIZE is set to a number, BATCH_INTERVAL to text
that is not a number, everything else is unset. -/
def sampleEnv (key : String) : Option String :=
  if key = "BATCH_SIZE" then some "25"
  else if key = "BATCH_INTERVAL" then some "soon"
  else none

/-- Configuration with threshold 3 and interval 60 s. -/
def cfg3 : Config := ⟨3, 60 * second, "http://requestbin.net"⟩

/-- Schedule: A and B arrive at time 0 (flushed by size), C arrives at 30 s,
and at 60 s the timer started by the handler of A wakes up. -/
def staleTimerSchedule : List Action :=
  [Action.request (Except.ok pA), Action.request (Except.ok pB),
   Action.advance 30000000000, Action.request (Except.ok pC),
   Action.advance 30000000000, Action.fire 0]

/-- State reached by `staleTimerSchedule`. -/
def staleTimerFinal : Timed :=
  ⟨60000000000, ⟨[], 2⟩, [(30000000000, 90000000000)], [],
   [0, 0, 30000000000], [⟨60000000000, 0, [30000000000]⟩], true⟩

/-! ## Sequential behaviour of the size trigger -/

theorem sendBatch_succ_ok (c : Config) (deliver : Delivery) (fuel : Nat) (s : State)
    (h : deliver s.posts = true) :
    sendBatch c deliver (fuel + 1) s =
      ⟨⟨[], s.posts + 1⟩,
       [Event.callSendBatch s.payloadCache, Event.logSending s.payloadCache.length,
        Event.post (c.postEndpoint ++ "/batch") "application/json" none, Event.logSent],
       Outcome.returned⟩ := by
  simp [sendBatch, h]

theorem logHandler_below (c : Config) (deliver : Delivery) (fuel : Nat) (p : Payload)
    (s : State) (h : ((s.payloadCache.length : Int) + 1) < c.batchSize) :
    logHandler c deliver fuel (Except.ok p) s =
      ⟨⟨s.payloadCache ++ [p], s.posts⟩,
       [Event.goTimer c.batchInterval, Event.writeHeader statusOK], Outcome.returned⟩ := by
  have h2 : ¬ (c.batchSize ≤ (s.payloadCache.length : Int) + 1) := by omega
  simp [logHandler, h2]

theorem logHandler_reach_ok (c : Config) (deliver : Delivery) (fuel : Nat) (p : Payload)
    (s : State) (h : c.batchSize ≤ (s.payloadCache.length : Int) + 1)
    (hok : deliver s.posts = true) :
    logHandler c deliver (fuel + 1) (Except.ok p) s =
      ⟨⟨[], s.posts + 1⟩,
       [Event.callSendBatch (s.payloadCache ++ [p]),
        Event.logSending (s.payloadCache.length + 1),
        Event.post (c.postEndpoint ++ "/batch") "application/json" none, Event.logSent,
        Event.writeHeader statusOK],
       Outcome.returned⟩ := by
  simp [logHandler, h, sendBatch, hok]

theorem serve_cons_of_returned (c : Config) (deliver : Delivery) (fuel : Nat)
    (req : Except String Payload) (reqs : List (Except String Payload)) (s : State)
    (h : (logHandler c deliver fuel req s).outcome = Outcome.returned) :
    serve c deliver fuel (req :: reqs) s =
      logHandler c deliver fuel req s ::
        serve c deliver fuel reqs (logHandler c deliver fuel req s).state := by
  rw [serve]
  simp only [h]

theorem serve_fill (c : Config) (deliver : Delivery) (fuel k : Nat) :
    ∀ (ps pre : List Payload), ps ≠ [] →
      c.batchSize = ((pre.length + ps.length : Nat) : Int) → deliver k = true →
      (serve c deliver (fuel + 1) (ps.map Except.ok) ⟨pre, k⟩).map (fun r => flushes r.trace)
          = List.replicate (ps.length - 1) [] ++ [[pre ++ ps]] ∧
      (serve c deliver (fuel + 1) (ps.map Except.ok) ⟨pre, k⟩).map (fun r => r.outcome)
          = List.replicate ps.length Outcome.returned ∧
      ((serve c deliver (fuel + 1) (ps.map Except.ok) ⟨pre, k⟩).getLast?).map
          (fun r => r.state.payloadCache) = some [] := by
  intro ps
  induction ps with
  | nil => intro pre h; exact absurd rfl h
  | cons p rest ih =>
    intro pre _ hsize hok
    cases rest with
    | nil =>
      have h1 : c.batchSize ≤ ((⟨pre, k⟩ : State).payloadCache.length : Int) + 1 := by
        simp at hsize ⊢; omega
      have := logHandler_reach_ok c deliver fuel p ⟨pre, k⟩ h1 hok
      simp [serve, this, flushes]
    | cons q rest2 =>
      have h1 : (((⟨pre, k⟩ : State).payloadCache.length : Int) + 1) < c.batchSize := by
        simp at hsize ⊢; omega
      have hl := logHandler_below c deliver (fuel + 1) p ⟨pre, k⟩ h1
      have ih2 := ih (pre ++ [p]) (by simp) (by simp at hsize ⊢; omega) hok
      obtain ⟨i1, i2, i3⟩ := ih2
      rw [List.map_cons, serve_cons_of_returned _ _ _ _ _ _ (by rw [hl]), hl]
      simp only [List.map_cons] at i1 i2 i3 ⊢
      generalize serve c deliver (fuel + 1) (Except.ok q :: List.map Except.ok rest2)
        ⟨pre ++ [p], k⟩ = L at i1 i2 i3
      refine ⟨?_, ?_, ?_⟩
      · rw [i1]
        simp [flushes, List.replicate_succ]
      · rw [i2]
        simp [List.replicate_succ]
      · cases L with
        | nil => simp at i3
        | cons x xs => rw [List.getLast?_cons_cons]; exact i3

/-- C1: with batchSize equal to the number t >= 1 of payloads, an empty cache
and a succeeding delivery call, handling the t payloads in turn calls
sendBatch exactly once, in the last call, with the cache holding exactly the t
payloads in arrival order; every call returns and the cache ends empty. -/
theorem size_trigger_flushes_once (c : Config) (deliver : Delivery) (fuel k : Nat)
    (ps : List Payload) (hpos : 1 ≤ ps.length) (hsize : c.batchSize = (ps.length : Int))
    (hok : deliver k = true) :
    (serve c deliver (fuel + 1) (ps.map Except.ok) ⟨[], k⟩).map (fun r => flushes r.trace)
        = List.replicate (ps.length - 1) [] ++ [[ps]] ∧
    (serve c deliver (fuel + 1) (ps.map Except.ok) ⟨[], k⟩).map (fun r => r.outcome)
        = List.replicate ps.length Outcome.returned ∧
    ((serve c deliver (fuel + 1) (ps.map Except.ok) ⟨[], k⟩).getLast?).map
        (fun r => r.state.payloadCache) = some [] := by
  have hne : ps ≠ [] := by
    intro h
    rw [h] at hpos
    simp at hpos
  have h := serve_fill c deliver fuel k ps [] hne (by simpa using hsize) hok
  simpa using h

theorem size_trigger_flushes_once_witness :
    (serve cfg2 (fun _ => true) 1 ([pA, pB].map Except.ok) ⟨[], 0⟩).map
        (fun r => flushes r.trace) = List.replicate ([pA, pB].length - 1) [] ++ [[[pA, pB]]] ∧
    (serve cfg2 (fun _ => true) 1 ([pA, pB].map Except.ok) ⟨[], 0⟩).map (fun r => r.outcome)
        = List.replicate [pA, pB].length Outcome.returned ∧
    ((serve cfg2 (fun _ => true) 1 ([pA, pB].map Except.ok) ⟨[], 0⟩).getLast?).map
        (fun r => r.state.payloadCache) = some [] :=
  size_trigger_flushes_once cfg2 (fun _ => true) 0 0 [pA, pB] (by decide) (by decide) rfl

/-! ## Flush of an empty cache -/

theorem retryLoop_cache_nil (send : State → Run)
    (hsend : ∀ s, s.payloadCache = [] → (send s).state.payloadCache = []) :
    ∀ (k : Nat) (s : State), s.payloadCache = [] →
      (retryLoop send k s).state.payloadCache = [] := by
  intro k
  induction k with
  | zero => intro s h; simpa [retryLoop] using h
  | succ k ih =>
    intro s h
    have h1 := hsend s h
    rw [retryLoop]
    cases ho : (send s).outcome with
    | returned => simpa [ho] using ih (send s).state h1
    | exited code => simpa [ho] using h1
    | outOfFuel => simpa [ho] using h1

theorem sendBatch_cache_nil (c : Config) (deliver : Delivery) :
    ∀ (fuel : Nat) (s : State), s.payloadCache = [] →
      (sendBatch c deliver fuel s).state.payloadCache = [] := by
  intro fuel
  induction fuel with
  | zero => intro s h; simpa [sendBatch] using h
  | succ fuel ih =>
    intro s h
    rw [sendBatch]
    by_cases hd : deliver s.posts = true
    · simp [hd]
    · simp only [hd]
      exact retryLoop_cache_nil _ ih 3 _ h

/-- C3 (as stated) fails: sendBatch called with an empty payloadCache and a
succeeding delivery still performs the http.Post call. -/
theorem empty_flush_still_posts :
    (⟨[], 0⟩ : State).payloadCache = [] ∧
    deliveries (sendBatch cfg2 (fun _ => true) 1 ⟨[], 0⟩).trace
      = [Event.post "http://requestbin.net/batch" "application/json" none] := by
  decide

/-- C3 (amended): a call of sendBatch made while payloadCache is empty still
makes the delivery call first (exactly one, and it returns, when that call
succeeds), and payloadCache is empty when the call ends. -/
theorem empty_flush_posts_and_stays_empty (c : Config) (deliver : Delivery) (fuel : Nat)
    (s : State) (hempty : s.payloadCache = []) :
    (deliveries (sendBatch c deliver (fuel + 1) s).trace).head?
        = some (Event.post (c.postEndpoint ++ "/batch") "application/json" none) ∧
    (deliver s.posts = true →
      deliveries (sendBatch c deliver (fuel + 1) s).trace
          = [Event.post (c.postEndpoint ++ "/batch") "application/json" none] ∧
      (sendBatch c deliver (fuel + 1) s).outcome = Outcome.returned) ∧
    (sendBatch c deliver (fuel + 1) s).state.payloadCache = [] := by
  refine ⟨?_, ?_, sendBatch_cache_nil c deliver (fuel + 1) s hempty⟩
  · rw [sendBatch]
    by_cases hd : deliver s.posts = true
    · simp [hd, deliveries]
    · simp [hd, deliveries]
  · intro hd
    rw [sendBatch_succ_ok c deliver fuel s hd]
    simp [deliveries]

theorem empty_flush_posts_and_stays_empty_witness :
    (⟨[], 0⟩ : State).payloadCache = [] ∧
    (deliveries (sendBatch cfg2 (fun _ => true) 1 ⟨[], 0⟩).trace).head?
        = some (Event.post (cfg2.postEndpoint ++ "/batch") "application/json" none) ∧
    (deliveries (sendBatch cfg2 (fun _ => true) 1 ⟨[], 0⟩).trace
        = [Event.post (cfg2.postEndpoint ++ "/batch") "application/json" none] ∧
      (sendBatch cfg2 (fun _ => true) 1 ⟨[], 0⟩).outcome = Outcome.returned) ∧
    (sendBatch cfg2 (fun _ => true) 1 ⟨[], 0⟩).state.payloadCache = [] :=
  ⟨rfl,
   (empty_flush_posts_and_stays_empty cfg2 (fun _ => true) 0 ⟨[], 0⟩ rfl).1,
   (empty_flush_posts_and_stays_empty cfg2 (fun _ => true) 0 ⟨[], 0⟩ rfl).2.1 rfl,
   (empty_flush_posts_and_stays_empty cfg2 (fun _ => true) 0 ⟨[], 0⟩ rfl).2.2⟩

/-! ## Retries -/

/-- C4 (code evaluated): when the delivery fails on its first two calls and
succeeds afterwards, sendBatch makes 5 delivery calls (two of them after the
first success, with an emptied cache) and ends in os.Exit(1). -/
theorem fail_twice_then_ok_exits (c : Config) (cache : List Payload) (fuel : Nat) :
    (deliveries (sendBatch c (fun n => decide (2 ≤ n)) (fuel + 3) ⟨cache, 0⟩).trace).length = 5 ∧
    flushes (sendBatch c (fun n => decide (2 ≤ n)) (fuel + 3) ⟨cache, 0⟩).trace
      = [cache, cache, cache, [], []] ∧
    (sendBatch c (fun n => decide (2 ≤ n)) (fuel + 3) ⟨cache, 0⟩).outcome = Outcome.exited 1 := by
  simp [sendBatch, retryBatch, retryLoop, deliveries, flushes]

theorem always_fail_run (c : Config) :
    ∀ (fuel : Nat) (s : State),
      (sendBatch c (fun _ => false) fuel s).outcome = Outcome.outOfFuel ∧
      (deliveries (sendBatch c (fun _ => false) fuel s).trace).length = fuel ∧
      (sleeps (sendBatch c (fun _ => false) fuel s).trace).length = fuel := by
  intro fuel
  induction fuel with
  | zero => intro s; simp [sendBatch, deliveries, sleeps]
  | succ fuel ih =>
    intro s
    obtain ⟨h1, h2, h3⟩ := ih ⟨s.payloadCache, s.posts + 1⟩
    unfold deliveries at h2
    unfold sleeps at h3
    rw [sendBatch]
    simp only [retryBatch, retryLoop, h1, deliveries, sleeps]
    refine ⟨?_, ?_, ?_⟩
    · simp
    · simp [List.filter_cons, h2]
    · simp [List.filter_cons, h3]

/-- C5 (code evaluated): when the delivery fails on every call, sendBatch never
reaches os.Exit(1): for every nesting bound the run is still going when the
bound is hit, having made as many delivery calls as the bound allows (so more
than 3 as soon as the bound exceeds 3). -/
theorem always_fail_never_exits (c : Config) (fuel : Nat) (s : State) :
    (sendBatch c (fun _ => false) fuel s).outcome = Outcome.outOfFuel ∧
    (deliveries (sendBatch c (fun _ => false) fuel s).trace).length = fuel :=
  ⟨(always_fail_run c fuel s).1, (always_fail_run c fuel s).2.1⟩

/-! ## Malformed requests -/

/-- C7: when the request body fails to decode, logHandler responds with
status 400, leaves the state (payloadCache) unchanged, returns, and neither
calls sendBatch, performs a delivery call, nor starts an interval timer. -/
theorem decode_failure_is_bad_request (c : Config) (deliver : Delivery) (fuel : Nat)
    (err : String) (s : State) :
    (logHandler c deliver fuel (Except.error err) s).state = s ∧
    (logHandler c deliver fuel (Except.error err) s).trace
      = [Event.logDecodeFailed err, Event.writeHeader 400] ∧
    (logHandler c deliver fuel (Except.error err) s).outcome = Outcome.returned ∧
    flushes (logHandler c deliver fuel (Except.error err) s).trace = [] ∧
    deliveries (logHandler c deliver fuel (Except.error err) s).trace = [] ∧
    timersOf (logHandler c deliver fuel (Except.error err) s).trace = [] := by
  simp [logHandler, statusBadRequest, flushes, deliveries, timersOf]

/-! ## Response status and delivery order -/

/-- C8 (as stated) fails: with batchSize 1 and an empty cache, a well-formed
payload makes logHandler perform the delivery call before it writes 200. -/
theorem reaching_batch_size_posts_before_ok :
    deliveries (beforeOK (logHandler ⟨1, 60 * second, "http://requestbin.net"⟩
        (fun _ => true) 1 (Except.ok pA) ⟨[], 0⟩).trace)
      = [Event.post "http://requestbin.net/batch" "application/json" none] := by
  decide

/-- C8 (amended): for a well-formed payload that leaves payloadCache shorter
than batchSize, logHandler only starts the timer goroutine and writes 200: no
delivery call and no sleep happens in the handler.  When the payload brings
payloadCache to batchSize, sendBatch runs inside the handler and its delivery
call comes before any status is written. -/
theorem ok_status_order (c : Config) (deliver : Delivery) (fuel : Nat) (p : Payload)
    (s : State) :
    (((s.payloadCache.length : Int) + 1) < c.batchSize →
      (logHandler c deliver fuel (Except.ok p) s).trace
          = [Event.goTimer c.batchInterval, Event.writeHeader 200] ∧
      (logHandler c deliver fuel (Except.ok p) s).outcome = Outcome.returned ∧
      deliveries (logHandler c deliver fuel (Except.ok p) s).trace = [] ∧
      sleeps (logHandler c deliver fuel (Except.ok p) s).trace = []) ∧
    (c.batchSize ≤ (s.payloadCache.length : Int) + 1 →
      (deliveries (beforeOK (logHandler c deliver (fuel + 1) (Except.ok p) s).trace)).head?
          = some (Event.post (c.postEndpoint ++ "/batch") "application/json" none)) := by
  constructor
  · intro h
    rw [logHandler_below c deliver fuel p s h]
    simp [statusOK, deliveries, sleeps]
  · intro h
    simp only [logHandler, List.length_append, List.length_singleton, Nat.cast_add,
      Nat.cast_one, ge_iff_le, h, if_true]
    rw [sendBatch]
    by_cases hd : deliver s.posts = true
    · simp [hd, beforeOK, deliveries, List.takeWhile_cons]
    · simp only [hd]
      cases ho : (retryBatch (sendBatch c deliver fuel)
          ⟨s.payloadCache ++ [p], s.posts + 1⟩).outcome <;>
        simp [ho, beforeOK, deliveries, List.takeWhile_cons]

theorem ok_status_order_witness :
    ((logHandler cfg2 (fun _ => true) 0 (Except.ok pA) ⟨[], 0⟩).trace
        = [Event.goTimer cfg2.batchInterval, Event.writeHeader 200] ∧
      (logHandler cfg2 (fun _ => true) 0 (Except.ok pA) ⟨[], 0⟩).outcome = Outcome.returned ∧
      deliveries (logHandler cfg2 (fun _ => true) 0 (Except.ok pA) ⟨[], 0⟩).trace = [] ∧
      sleeps (logHandler cfg2 (fun _ => true) 0 (Except.ok pA) ⟨[], 0⟩).trace = []) ∧
    (deliveries (beforeOK (logHandler cfg2 (fun _ => false) (2 + 1)
        (Except.ok pB) ⟨[pA], 0⟩).trace)).head?
        = some (Event.post (cfg2.postEndpoint ++ "/batch") "application/json" none) :=
  ⟨(ok_status_order cfg2 (fun _ => true) 0 pA ⟨[], 0⟩).1 (by decide),
   (ok_status_order cfg2 (fun _ => false) 2 pB ⟨[pA], 0⟩).2 (by decide)⟩

/-! ## The delivery request -/

theorem deliveries_append (a b : List Event) :
    deliveries (a ++ b) = deliveries a ++ deliveries b := by
  simp [deliveries]

theorem retryLoop_deliveries (send : State → Run) (P : Event → Prop)
    (hsend : ∀ s, ∀ e ∈ deliveries (send s).trace, P e) :
    ∀ (k : Nat) (s : State), ∀ e ∈ deliveries (retryLoop send k s).trace, P e := by
  intro k
  induction k with
  | zero => intro s e he; simp [retryLoop, deliveries] at he
  | succ k ih =>
    intro s e he
    rw [retryLoop] at he
    cases ho : (send s).outcome with
    | returned =>
      simp only [ho, deliveries_append] at he
      rcases List.mem_append.1 he with h | h
      · rcases List.mem_append.1 h with h | h
        · simp [deliveries] at h
        · exact hsend s e h
      · exact ih _ e h
    | exited code =>
      simp only [ho, deliveries_append] at he
      rcases List.mem_append.1 he with h | h
      · simp [deliveries] at h
      · exact hsend s e h
    | outOfFuel =>
      simp only [ho, deliveries_append] at he
      rcases List.mem_append.1 he with h | h
      · simp [deliveries] at h
      · exact hsend s e h

/-- C9 (code evaluated): every delivery call made by sendBatch is a POST to
postEndpoint followed by "/batch" with content type application/json and a nil
body, whatever payloadCache holds; flushes of different caches send the same
(empty) body. -/
theorem post_body_is_nil (c : Config) (deliver : Delivery) :
    ∀ (fuel : Nat) (s : State), ∀ e ∈ deliveries (sendBatch c deliver fuel s).trace,
      e = Event.post (c.postEndpoint ++ "/batch") "application/json" none := by
  intro fuel
  induction fuel with
  | zero => intro s e he; simp [sendBatch, deliveries] at he
  | succ fuel ih =>
    intro s e he
    rw [sendBatch] at he
    by_cases hd : deliver s.posts = true
    · simp [hd, deliveries] at he
      exact he
    · simp only [hd, Bool.false_eq_true, ↓reduceIte, deliveries_append] at he
      rcases List.mem_append.1 he with h | h
      · simp [deliveries] at h
        exact h
      · exact retryLoop_deliveries (sendBatch c deliver fuel)
          (fun e => e = Event.post (c.postEndpoint ++ "/batch") "application/json" none)
          ih 3 _ e h

theorem post_body_is_nil_witness :
    Event.post "http://requestbin.net/batch" "application/json" none
        ∈ deliveries (sendBatch cfg2 (fun _ => true) 1 ⟨[pA], 0⟩).trace ∧
    Event.post "http://requestbin.net/batch" "application/json" none
        = Event.post (cfg2.postEndpoint ++ "/batch") "application/json" none :=
  ⟨by decide,
   post_body_is_nil cfg2 (fun _ => true) 1 ⟨[pA], 0⟩
     (Event.post "http://requestbin.net/batch" "application/json" none) (by decide)⟩

/-! ## Configuration -/

/-- C10: getEnvAsInt returns the default when the variable is unset or its
value is rejected by strconv.Atoi, and the parsed integer otherwise; with
BATCH_SIZE and BATCH_INTERVAL unset or rejected, init sets batchSize to 10 and
batchInterval to 60 seconds. -/
theorem getEnvAsInt_defaults (lookupEnv : String → Option String)
    (atoi : String → Option Int) (key : String) (d : Int) :
    (lookupEnv key = none → getEnvAsInt lookupEnv atoi key d = d) ∧
    (∀ v, lookupEnv key = some v → atoi v = none → getEnvAsInt lookupEnv atoi key d = d) ∧
    (∀ v n, lookupEnv key = some v → atoi v = some n →
      getEnvAsInt lookupEnv atoi key d = n) ∧
    ((lookupEnv "BATCH_SIZE" = none ∨
        ∃ v, lookupEnv "BATCH_SIZE" = some v ∧ atoi v = none) →
      (init lookupEnv atoi).batchSize = 10) ∧
    ((lookupEnv "BATCH_INTERVAL" = none ∨
        ∃ v, lookupEnv "BATCH_INTERVAL" = some v ∧ atoi v = none) →
      (init lookupEnv atoi).batchInterval = 60 * second) := by
  refine ⟨?_, ?_, ?_, ?_, ?_⟩
  · intro h
    simp [getEnvAsInt, h]
  · intro v h1 h2
    simp [getEnvAsInt, h1, h2]
  · intro v n h1 h2
    simp [getEnvAsInt, h1, h2]
  · rintro (h | ⟨v, h1, h2⟩)
    · simp [init, getEnvAsInt, h]
    · simp [init, getEnvAsInt, h1, h2]
  · rintro (h | ⟨v, h1, h2⟩)
    · simp [init, getEnvAsInt, h]
      decide
    · simp [init, getEnvAsInt, h1, h2]
      decide

theorem getEnvAsInt_defaults_witness :
    getEnvAsInt sampleEnv atoiDec "POST_ENDPOINT" 7 = 7 ∧
    getEnvAsInt sampleEnv atoiDec "BATCH_INTERVAL" 60 = 60 ∧
    getEnvAsInt sampleEnv atoiDec "BATCH_SIZE" 10 = 25 ∧
    (init sampleEnv atoiDec).batchInterval = 60 * second ∧
    (init (fun _ => none) atoiDec).batchSize = 10 :=
  ⟨(getEnvAsInt_defaults sampleEnv atoiDec "POST_ENDPOINT" 7).1 (by decide),
   (getEnvAsInt_defaults sampleEnv atoiDec "BATCH_INTERVAL" 60).2.1 "soon"
     (by decide) (by decide),
   (getEnvAsInt_defaults sampleEnv atoiDec "BATCH_SIZE" 10).2.2.1 "25" 25
     (by decide) (by decide),
   (getEnvAsInt_defaults sampleEnv atoiDec "X" 0).2.2.2.2
     (Or.inr ⟨"soon", by decide, by decide⟩),
   (getEnvAsInt_defaults (fun _ => none) atoiDec "X" 0).2.2.2.1 (Or.inl rfl)⟩

/-! ## Interleavings -/

theorem takeInv_start : Shared.start.takeInv := by
  refine ⟨rfl, rfl, ?_, ?_, ?_⟩
  · intro e he; simp [Shared.start] at he
  · intro b hb; simp [Shared.start] at hb
  · intro i hi; simp [Shared.start] at hi

theorem takeInv_append (s : Shared) (p : Payload) (h : s.takeInv) :
    (⟨s.payloadCache ++ [(s.appended, p)], s.appended + 1, s.delivered, s.pending, []⟩ :
      Shared).takeInv := by
  obtain ⟨h0, _, h1, h2, h3⟩ := h
  refine ⟨h0, rfl, ?_, ?_, ?_⟩
  · intro e he
    rcases List.mem_append.1 he with he | he
    · have := h1 e he
      show e.1 < s.appended + 1
      omega
    · simp at he
      subst he
      show s.appended < s.appended + 1
      omega
  · intro b hb e he
    have := h2 b hb e he
    show e.1 < s.appended + 1
    omega
  · intro i hi
    have hi2 : i < s.appended ∨ i = s.appended := by
      have : i < s.appended + 1 := hi
      omega
    rcases hi2 with hlt | heq
    · have hne : ¬ s.appended = i := by omega
      rcases h3 i hlt with ⟨hc, ht⟩ | ⟨hc, ht⟩
      · left
        refine ⟨?_, ht⟩
        simp only [Shared.cached, List.any_append] at hc ⊢
        simp [hc]
      · right
        refine ⟨?_, ht⟩
        simp only [Shared.cached, List.any_append] at hc ⊢
        simp [hc, hne]
    · subst heq
      left
      refine ⟨?_, ?_⟩
      · simp [Shared.cached]
      · simp only [Shared.timesDelivered, List.countP_eq_zero]
        intro b hb
        simp only [List.any_eq_true, not_exists, not_and]
        intro e he
        have := h2 b hb e he
        simp
        omega

theorem takeInv_take (s : Shared) (h : s.takeInv) :
    (⟨[], s.appended, s.delivered ++ [s.payloadCache], s.pending + 1 - 1, s.loaded⟩ :
      Shared).takeInv := by
  obtain ⟨h0, hl, h1, h2, h3⟩ := h
  refine ⟨by simpa using h0, hl, ?_, ?_, ?_⟩
  · intro e he; simp at he
  · intro b hb e he
    rcases List.mem_append.1 hb with hb | hb
    · exact h2 b hb e he
    · simp at hb
      subst hb
      exact h1 e he
  · intro i hi
    right
    refine ⟨by simp [Shared.cached], ?_⟩
    rcases h3 i hi with ⟨hc, ht⟩ | ⟨hc, ht⟩
    · simp only [Shared.timesDelivered, Shared.cached] at hc ht ⊢
      simp [List.countP_append, ht, List.countP_cons, hc]
    · simp only [Shared.timesDelivered, Shared.cached] at hc ht ⊢
      simp [List.countP_append, ht, List.countP_cons, hc]

theorem exec_load_store (s : Shared) (h : Nat) (p : Payload) (rest : List Step)
    (hl : s.loaded = []) :
    s.exec (Step.load h :: Step.store h p :: rest) =
      (⟨s.payloadCache ++ [(s.appended, p)], s.appended + 1, s.delivered, s.pending, []⟩ :
        Shared).exec rest := by
  simp [Shared.exec, Shared.step, hl, List.lookup]

theorem takeInv_exec :
    ∀ (n : Nat) (steps : List Step) (s s1 : Shared), steps.length ≤ n → s.takeInv →
      atomicAccesses steps = true → s.exec steps = some s1 → s1.takeInv := by
  intro n
  induction n with
  | zero =>
    intro steps s s1 hlen hinv _ hex
    have : steps = [] := List.length_eq_zero.1 (by omega)
    subst this
    simp [Shared.exec] at hex
    subst hex
    exact hinv
  | succ n ih =>
    intro steps s s1 hlen hinv hat hex
    match steps, hlen, hat, hex with
    | [], _, _, hex =>
      simp [Shared.exec] at hex
      subst hex
      exact hinv
    | Step.load h :: Step.store h1 p :: rest, hlen, hat, hex =>
      simp only [atomicAccesses, Bool.and_eq_true, beq_iff_eq] at hat
      obtain ⟨hh, hat⟩ := hat
      subst hh
      rw [exec_load_store s h p rest hinv.2.1] at hex
      exact ih rest _ s1 (by simp at hlen; omega) (takeInv_append s p hinv) hat hex
    | Step.post false :: rest, hlen, hat, hex =>
      simp only [Shared.exec, Shared.step] at hex
      simp only [atomicAccesses] at hat
      exact ih rest _ s1 (by simp at hlen; omega) hinv hat hex
    | Step.post true :: Step.clear :: rest, hlen, hat, hex =>
      simp only [Shared.exec, Shared.step] at hex
      simp only [atomicAccesses] at hat
      have hp : ¬ (s.pending + 1 = 0) := by omega
      simp only [hp, if_false] at hex
      exact ih rest _ s1 (by simp at hlen; omega) (takeInv_take s hinv) hat hex
    | [Step.load _], _, hat, _ => simp [atomicAccesses] at hat
    | Step.load _ :: Step.load _ :: _, _, hat, _ => simp [atomicAccesses] at hat
    | Step.load _ :: Step.post _ :: _, _, hat, _ => simp [atomicAccesses] at hat
    | Step.load _ :: Step.clear :: _, _, hat, _ => simp [atomicAccesses] at hat
    | Step.store _ _ :: _, _, hat, _ => simp [atomicAccesses] at hat
    | [Step.post true], _, hat, _ => simp [atomicAccesses] at hat
    | Step.post true :: Step.load _ :: _, _, hat, _ => simp [atomicAccesses] at hat
    | Step.post true :: Step.store _ _ :: _, _, hat, _ => simp [atomicAccesses] at hat
    | Step.post true :: Step.post _ :: _, _, hat, _ => simp [atomicAccesses] at hat
    | Step.clear :: _, _, hat, _ => simp [atomicAccesses] at hat

/-- C2 (as stated) fails, in two ways.  In the interleaving where handler 1
appends A, a sendBatch call posts successfully, handler 2 appends B and the
sendBatch call then clears payloadCache, payload B (serial number 1) is
neither in payloadCache afterwards nor was it in payloadCache at any
successful delivery call.  And with no sendBatch step at all: when handlers 1
and 2 both read payloadCache before either writes the extended slice back,
the write of handler 2 drops payload A (serial number 0). -/
theorem append_during_take_is_lost :
    (Shared.start.exec [Step.load 1, Step.store 1 pA, Step.post true,
        Step.load 2, Step.store 2 pB, Step.clear]
      = some ⟨[], 2, [[(0, pA)]], 0, []⟩ ∧
    ¬ (⟨[], 2, [[(0, pA)]], 0, []⟩ : Shared).allAccounted) ∧
    (Shared.start.exec [Step.load 1, Step.load 2, Step.store 1 pA, Step.store 2 pB]
      = some ⟨[(1, pB)], 2, [], 0, []⟩ ∧
    ¬ (⟨[(1, pB)], 2, [], 0, []⟩ : Shared).allAccounted) := by
  refine ⟨⟨by decide, ?_⟩, ⟨by decide, ?_⟩⟩
  · intro h
    have h1 := h 1 (by decide)
    revert h1
    decide
  · intro h
    have h1 := h 0 (by decide)
    revert h1
    decide

/-- C2 (amended): in every interleaving in which no step runs between the
read and the write of payloadCache by one append (line 102), nor between a
successful delivery call of sendBatch and its clearing of payloadCache, every
appended payload is afterwards still in payloadCache or was in payloadCache at
exactly one successful delivery call, and none was in payloadCache at more
than one successful delivery call. -/
theorem atomic_accesses_account_for_all (steps : List Step) (s : Shared)
    (hat : atomicAccesses steps = true) (hex : Shared.start.exec steps = some s) :
    s.allAccounted ∧ ∀ i, i < s.appended → s.timesDelivered i ≤ 1 := by
  have h := takeInv_exec steps.length steps Shared.start s (le_refl _) takeInv_start hat hex
  constructor
  · intro i hi
    rcases h.2.2.2.2 i hi with ⟨hc, _⟩ | ⟨_, ht⟩
    · exact Or.inl hc
    · exact Or.inr ht
  · intro i hi
    rcases h.2.2.2.2 i hi with ⟨_, ht⟩ | ⟨_, ht⟩
    · omega
    · omega

theorem atomic_accesses_account_for_all_witness :
    atomicAccesses [Step.load 1, Step.store 1 pA, Step.post false, Step.post true,
        Step.clear, Step.load 1, Step.store 1 pB] = true ∧
    Shared.start.exec [Step.load 1, Step.store 1 pA, Step.post false, Step.post true,
        Step.clear, Step.load 1, Step.store 1 pB]
      = some ⟨[(1, pB)], 2, [[(0, pA)]], 0, []⟩ ∧
    ((⟨[(1, pB)], 2, [[(0, pA)]], 0, []⟩ : Shared).allAccounted ∧
      ∀ i, i < (⟨[(1, pB)], 2, [[(0, pA)]], 0, []⟩ : Shared).appended →
        (⟨[(1, pB)], 2, [[(0, pA)]], 0, []⟩ : Shared).timesDelivered i ≤ 1) :=
  ⟨by decide, by decide,
   atomic_accesses_account_for_all
     [Step.load 1, Step.store 1 pA, Step.post false, Step.post true, Step.clear,
      Step.load 1, Step.store 1 pB]
     ⟨[(1, pB)], 2, [[(0, pA)]], 0, []⟩ (by decide) (by decide)⟩

/-! ## Interval timers -/

theorem timersOf_append (a b : List Event) : timersOf (a ++ b) = timersOf a ++ timersOf b := by
  induction a with
  | nil => rfl
  | cons e a ih => cases e <;> simp [timersOf, ih]

theorem retryLoop_timersOf (send : State → Run)
    (hsend : ∀ s, timersOf (send s).trace = []) :
    ∀ (k : Nat) (s : State), timersOf (retryLoop send k s).trace = [] := by
  intro k
  induction k with
  | zero => intro s; simp [retryLoop, timersOf]
  | succ k ih =>
    intro s
    rw [retryLoop]
    cases ho : (send s).outcome <;>
      simp [ho, timersOf_append, timersOf, hsend, ih]

theorem sendBatch_timersOf (c : Config) (deliver : Delivery) :
    ∀ (fuel : Nat) (s : State), timersOf (sendBatch c deliver fuel s).trace = [] := by
  intro fuel
  induction fuel with
  | zero => intro s; simp [sendBatch, timersOf]
  | succ fuel ih =>
    intro s
    rw [sendBatch]
    by_cases hd : deliver s.posts = true
    · simp [hd, timersOf]
    · simp only [hd, Bool.false_eq_true, ↓reduceIte, timersOf_append, retryBatch]
      simp [timersOf, retryLoop_timersOf _ ih]

theorem logHandler_timersOf (c : Config) (deliver : Delivery) (fuel : Nat) (p : Payload)
    (s : State) :
    timersOf (logHandler c deliver fuel (Except.ok p) s).trace
      = if ((s.payloadCache.length : Int) + 1) < c.batchSize then [c.batchInterval] else [] := by
  by_cases h : ((s.payloadCache.length : Int) + 1) < c.batchSize
  · rw [logHandler_below c deliver fuel p s h]
    simp [h, timersOf]
  · have h2 : c.batchSize ≤ (s.payloadCache.length : Int) + 1 := by omega
    simp only [logHandler, List.length_append, List.length_singleton, Nat.cast_add,
      Nat.cast_one, ge_iff_le, h2, if_true, h, if_false]
    cases ho : (sendBatch c deliver fuel ⟨s.payloadCache ++ [p], s.posts⟩).outcome <;>
      simp [ho, timersOf_append, timersOf, sendBatch_timersOf]

theorem logHandler_timer_mem (c : Config) (deliver : Delivery) (fuel : Nat)
    (decoded : Except String Payload) (s : State) (d : Int)
    (hd : d ∈ timersOf (logHandler c deliver fuel decoded s).trace) :
    (∃ p, decoded = Except.ok p) ∧ d = c.batchInterval := by
  cases decoded with
  | error err => simp [logHandler, timersOf] at hd
  | ok p =>
    rw [logHandler_timersOf] at hd
    by_cases h : ((s.payloadCache.length : Int) + 1) < c.batchSize
    · simp [h] at hd
      exact ⟨⟨p, rfl⟩, hd⟩
    · simp [h] at hd

theorem timerInv_request (c : Config) (deliver : Delivery) (fuel : Nat) (t : Timed)
    (decoded : Except String Payload) (h : t.timerInv c)
    (now1 : Int) (st1 : State) (arr1 : List Int) (alive1 : Bool) :
    (⟨now1, st1,
      t.timers ++ (timersOf (logHandler c deliver fuel decoded t.st).trace).map
        (fun d => (t.now, t.now + max d 0)),
      arr1,
      (match decoded with
        | Except.ok _ => t.accepted ++ [t.now]
        | Except.error _ => t.accepted),
      t.timedFlushes, alive1⟩ : Timed).timerInv c := by
  obtain ⟨h1, h2⟩ := h
  have hsub : ∀ x, x ∈ t.accepted → x ∈ (match decoded with
        | Except.ok _ => t.accepted ++ [t.now]
        | Except.error _ => t.accepted) := by
    intro x hx
    cases decoded with
    | error err => exact hx
    | ok p => exact List.mem_append_left _ hx
  constructor
  · intro tm htm
    rcases List.mem_append.1 htm with htm | htm
    · exact ⟨hsub _ (h1 tm htm).1, (h1 tm htm).2⟩
    · obtain ⟨d, hd, rfl⟩ := List.mem_map.1 htm
      obtain ⟨⟨p, rfl⟩, rfl⟩ := logHandler_timer_mem c deliver fuel decoded t.st d hd
      refine ⟨by simp, ?_⟩
      show t.now + c.batchInterval ≤ t.now + max c.batchInterval 0
      have := le_max_left c.batchInterval 0
      omega
  · intro f hf
    exact ⟨hsub _ (h2 f hf).1, (h2 f hf).2⟩

theorem timerInv_fire (c : Config) (t : Timed) (i : Nat) (armed wake : Int)
    (h : t.timerInv c) (hget : t.timers[i]? = some (armed, wake)) (hdue : wake ≤ t.now)
    (now1 : Int) (st1 : State) (arr1 : List Int) (alive1 : Bool) :
    (⟨now1, st1, t.timers.eraseIdx i, arr1, t.accepted,
      t.timedFlushes ++ [⟨t.now, armed, t.arrivals⟩], alive1⟩ : Timed).timerInv c := by
  obtain ⟨h1, h2⟩ := h
  have hmem : (armed, wake) ∈ t.timers := List.getElem?_mem hget
  constructor
  · intro tm htm
    exact h1 tm (List.mem_of_mem_eraseIdx htm)
  · intro f hf
    rcases List.mem_append.1 hf with hf | hf
    · exact h2 f hf
    · simp at hf
      subst hf
      have := h1 _ hmem
      refine ⟨this.1, ?_⟩
      show armed + c.batchInterval ≤ t.now
      have h3 : armed + c.batchInterval ≤ wake := this.2
      omega

theorem timerInv_step (c : Config) (deliver : Delivery) (fuel : Nat) (t t1 : Timed)
    (a : Action) (h : t.timerInv c) (hs : t.step c deliver fuel a = some t1) :
    t1.timerInv c := by
  cases a with
  | advance d =>
    by_cases ha : t.alive = true
    · simp [Timed.step, ha] at hs
      subst hs
      exact h
    · simp [Timed.step, ha] at hs
  | request decoded =>
    by_cases ha : t.alive = true
    · simp only [Timed.step, ha, if_true] at hs
      cases ho : (logHandler c deliver fuel decoded t.st).outcome with
      | returned =>
        simp only [ho, Option.some.injEq] at hs
        subst hs
        exact timerInv_request c deliver fuel t decoded h _ _ _ _
      | exited code =>
        simp only [ho, Option.some.injEq] at hs
        subst hs
        exact timerInv_request c deliver fuel t decoded h _ _ _ _
      | outOfFuel => simp [ho] at hs
    · simp [Timed.step, ha] at hs
  | fire i =>
    by_cases ha : t.alive = true
    · simp only [Timed.step, ha, if_true] at hs
      cases hg : t.timers[i]? with
      | none => simp [hg] at hs
      | some tm =>
        obtain ⟨armed, wake⟩ := tm
        simp only [hg] at hs
        by_cases hdue : wake ≤ t.now
        · simp only [hdue, if_true] at hs
          cases ho : (sendBatch c deliver fuel t.st).outcome with
          | returned =>
            simp only [ho, Option.some.injEq] at hs
            subst hs
            exact timerInv_fire c t i armed wake h hg hdue _ _ _ _
          | exited code =>
            simp only [ho, Option.some.injEq] at hs
            subst hs
            exact timerInv_fire c t i armed wake h hg hdue _ _ _ _
          | outOfFuel => simp [ho] at hs
        · simp [hdue] at hs
    · simp [Timed.step, ha] at hs

theorem timerInv_run (c : Config) (deliver : Delivery) (fuel : Nat) :
    ∀ (sched : List Action) (t t1 : Timed), t.timerInv c →
      t.run c deliver fuel sched = some t1 → t1.timerInv c := by
  intro sched
  induction sched with
  | nil =>
    intro t t1 h hr
    simp [Timed.run] at hr
    subst hr
    exact h
  | cons a rest ih =>
    intro t t1 h hr
    rw [Timed.run] at hr
    cases hs : t.step c deliver fuel a with
    | none => simp [hs] at hr
    | some t2 =>
      simp only [hs] at hr
      exact ih t2 t1 (timerInv_step c deliver fuel t t2 a h hs) hr

/-- C6 (as stated) fails: with threshold 3 the handler of a second payload
starts a timer although the cache was not empty; and with threshold 2 and
interval 60 s, after A and B (time 0) are flushed by size and C arrives at
30 s, the timer started for A runs sendBatch at 60 s with C in payloadCache,
only 30 s after C arrived. -/
theorem stale_timer_flushes_early :
    timersOf (logHandler cfg3 (fun _ => true) 1 (Except.ok pB) ⟨[pA], 0⟩).trace
      = [60 * second] ∧
    Timed.start.run cfg2 (fun _ => true) 1 staleTimerSchedule = some staleTimerFinal ∧
    ¬ staleTimerFinal.respectsOldest cfg2 := by
  refine ⟨by decide, by decide, ?_⟩
  intro h
  have h1 := h ⟨60000000000, 0, [30000000000]⟩ (by decide) 30000000000 (by decide)
  revert h1
  decide

/-- C6 (amended): logHandler starts an interval timer for every accepted
payload that leaves payloadCache shorter than batchSize, whether or not the
cache was empty before, and for no other; in every schedule a time-triggered
sendBatch runs no earlier than batchInterval after the arrival of the accepted
payload whose handler started that timer. -/
theorem timer_per_payload_below_threshold (c : Config) (deliver : Delivery) (fuel : Nat) :
    (∀ (p : Payload) (s : State),
      timersOf (logHandler c deliver fuel (Except.ok p) s).trace
        = if ((s.payloadCache.length : Int) + 1) < c.batchSize then [c.batchInterval]
          else []) ∧
    (∀ (sched : List Action) (t : Timed),
      Timed.start.run c deliver fuel sched = some t →
      ∀ f ∈ t.timedFlushes, f.armedAt ∈ t.accepted ∧ f.armedAt + c.batchInterval ≤ f.ranAt) := by
  constructor
  · intro p s
    exact logHandler_timersOf c deliver fuel p s
  · intro sched t hr
    have h0 : Timed.start.timerInv c := by
      constructor
      · intro tm htm; simp [Timed.start] at htm
      · intro f hf; simp [Timed.start] at hf
    exact (timerInv_run c deliver fuel sched Timed.start t h0 hr).2

theorem timer_per_payload_below_threshold_witness :
    timersOf (logHandler cfg2 (fun _ => true) 1 (Except.ok pA) ⟨[], 0⟩).trace
      = [cfg2.batchInterval] ∧
    ((0 : Int) ∈ staleTimerFinal.accepted ∧ (0 : Int) + cfg2.batchInterval ≤ 60000000000) :=
  ⟨((timer_per_payload_below_threshold cfg2 (fun _ => true) 1).1 pA ⟨[], 0⟩).trans
      (by decide),
   (timer_per_payload_below_threshold cfg2 (fun _ => true) 1).2 staleTimerSchedule
      staleTimerFinal (by decide) ⟨60000000000, 0, [30000000000]⟩ (by decide)⟩

end Benzinga
